import Mathlib

/-!
Verification of the `AppMenu` module (`src/main/menu/index.js`) of the
marktext repository: the recently-used-documents recency list, its on-disk
persistence, and the per-window menu snapshot coordination.

The JavaScript code is shallowly embedded: the mutable `AppMenu` instance
becomes explicit state passing, JavaScript exceptions become `Option`
(`none` = an exception propagated to the caller), and the `log.error`
calls become an explicit list of log messages in the result.
-/

set_option autoImplicit false

namespace MarkText

/-- The constant `MAX_RECENTLY_USED_DOCUMENTS` set in the `AppMenu`
constructor. -/
def MAX_RECENTLY_USED_DOCUMENTS : Nat := 12

/-! ## JavaScript array helpers

`Array.prototype.indexOf` returns the first index of the element, or `-1`
when absent.  We model it via an auxiliary `Option Nat` valued first-index
function. -/

/-- First index of `x` in the list, `none` when absent
(auxiliary for `jsIndexOf`). -/
def firstIndexOf (x : String) : List String → Option Nat
  | [] => none
  | y :: ys => if y = x then some 0 else (firstIndexOf x ys).map (· + 1)

/-- JavaScript `recentDocuments.indexOf(filePath)`: first index, `-1` when
absent. -/
def jsIndexOf (l : List String) (x : String) : Int :=
  match firstIndexOf x l with
  | none => -1
  | some n => (n : Int)

/-! ## The core of `addRecentlyUsedDocument` (lines 39-52)

The pure list-and-flag part of `addRecentlyUsedDocument`, between loading
the list and performing the conditional write.  `splice(index, 1)` removes
the one element at `index` (`List.eraseIdx`); `unshift` is `cons`;
`splice(MAX, length - MAX)` keeps only the first `MAX` elements
(`List.take MAX`).  The returned `Bool` is the final value of `needSave`,
which gates the persistence write on lines 56-60. -/

/-- The list manipulation core of `AppMenu.addRecentlyUsedDocument`:
returns the new list together with the `needSave` flag. -/
def addRecentlyUsedDocumentCore (filePath : String) (recentDocuments : List String) :
    List String × Bool :=
  let index : Int := jsIndexOf recentDocuments filePath
  let needSave : Bool := index ≠ 0
  let l1 : List String :=
    if index > 0 then recentDocuments.eraseIdx index.toNat else recentDocuments
  let l2 : List String := if index ≠ 0 then filePath :: l1 else l1
  if l2.length > MAX_RECENTLY_USED_DOCUMENTS then
    (l2.take MAX_RECENTLY_USED_DOCUMENTS, true)
  else
    (l2, needSave)

/-! ## JSON persistence model

The persisted file holds `JSON.stringify(recentDocuments, null, 2)`, a
pretty-printed JSON array of strings, and is read back with `JSON.parse`.
We model the file content as a `String` (`Option String` at the state
level, `none` meaning the file does not exist), with an executable
stringifier and an executable parser for JSON arrays of strings.  The
parser agrees with `JSON.parse` on every string this module itself writes
and rejects malformed input; JSON inputs that are not arrays of strings
(numbers, objects, `\u` escapes) are outside what the claims exercise and
are rejected as well. -/

/-- Escape one character as inside a JSON string literal. -/
def escapeJsonChar (c : Char) : List Char :=
  if c = '"' ∨ c = '\\' then ['\\', c]
  else if c = '\n' then ['\\', 'n']
  else if c = '\t' then ['\\', 't']
  else if c = '\r' then ['\\', 'r']
  else [c]

/-- A JSON string literal for `s`, with the surrounding quotes. -/
def quoteJson (s : String) : String :=
  String.mk ('"' :: s.data.foldr (fun c acc => escapeJsonChar c ++ acc) ['"'])

/-- The output of `JSON.stringify(xs, null, 2)` for an array of strings:
`[]` when empty, otherwise one element per line indented by two spaces. -/
def jsonStringifyPretty : List String → String
  | [] => "[]"
  | x :: xs =>
    "[\n" ++ String.intercalate ",\n" ((x :: xs).map (fun s => "  " ++ quoteJson s)) ++ "\n]"

/-- Drop leading JSON whitespace. -/
def skipWs : List Char → List Char
  | [] => []
  | c :: cs => if c = ' ' ∨ c = '\n' ∨ c = '\t' ∨ c = '\r' then skipWs cs else c :: cs

/-- Unescape the character following a backslash in a JSON string literal
(`none` for escape forms this model does not support). -/
def unescapeJsonChar (c : Char) : Option Char :=
  if c = '"' then some '"'
  else if c = '\\' then some '\\'
  else if c = '/' then some '/'
  else if c = 'n' then some '\n'
  else if c = 't' then some '\t'
  else if c = 'r' then some '\r'
  else none

/-- Parse the body of a JSON string literal after the opening quote;
returns the content and the remaining input after the closing quote. -/
def parseStringBody : List Char → Option (List Char × List Char)
  | [] => none
  | '"' :: cs => some ([], cs)
  | '\\' :: cs =>
    match cs with
    | [] => none
    | e :: cs2 =>
      match unescapeJsonChar e, parseStringBody cs2 with
      | some u, some (acc, rest) => some (u :: acc, rest)
      | _, _ => none
  | c :: cs =>
    match parseStringBody cs with
    | some (acc, rest) => some (c :: acc, rest)
    | none => none

/-- Parse the remainder of a JSON array of strings after one element,
i.e. a sequence of `, "elem"` groups followed by `]`.  Fuel-indexed to
make the recursion structural; each group consumes at least two
characters, so an initial fuel of `length + 1` is always enough. -/
def parseArrayTail : Nat → List Char → Option (List String × List Char)
  | 0, _ => none
  | n + 1, cs =>
    match skipWs cs with
    | ']' :: rest => some ([], rest)
    | ',' :: rest =>
      match skipWs rest with
      | '"' :: rest2 =>
        match parseStringBody rest2 with
        | some (content, rest3) =>
          match parseArrayTail n rest3 with
          | some (strs, rest4) => some (String.mk content :: strs, rest4)
          | none => none
        | none => none
      | _ => none
    | _ => none

/-- Parse a complete JSON array of strings (`JSON.parse` restricted to the
shapes this module reads and writes); `none` models a parse exception. -/
def parseStringArray (s : String) : Option (List String) :=
  match skipWs s.data with
  | '[' :: rest =>
    match skipWs rest with
    | ']' :: rest2 => if (skipWs rest2).isEmpty then some [] else none
    | '"' :: rest2 =>
      match parseStringBody rest2 with
      | some (content, rest3) =>
        match parseArrayTail (rest3.length + 1) rest3 with
        | some (strs, rest4) =>
          if (skipWs rest4).isEmpty then some (String.mk content :: strs) else none
        | none => none
      | none => none
    | _ => none
  | _ => none

/-! ## Filesystem collaborator and `getRecentlyUsedDocuments` -/

/-- The filesystem-helper collaborator (`isFile` / `isDirectory` from
`src/main/filesystem`), consumed as an opaque interface of existence
checks. -/
structure Fs where
  isFile : String → Bool
  isDirectory : String → Bool

/-- The truncation step shared by `getRecentlyUsedDocuments` (lines
73-75) and `addRecentlyUsedDocument` (lines 49-52):
`splice(MAX, length - MAX)` keeps only the first `MAX` entries, and runs
only when the list is over the maximum. -/
def truncateToMax (l : List String) : List String :=
  if l.length > MAX_RECENTLY_USED_DOCUMENTS then l.take MAX_RECENTLY_USED_DOCUMENTS else l

/-- Result of loading the recency list: the returned documents plus the
`log.error` messages emitted while loading. -/
structure LoadResult where
  docs : List String
  logs : List String
  deriving DecidableEq, Repr

/-- The model of `AppMenu.getRecentlyUsedDocuments` (lines 63-81).
`fileContent = none` models `!isFile(RECENTS_PATH)`.  A parse failure is
caught: it is logged and the empty list is returned (the function is
total, so no exception reaches the caller).  The JavaScript filter
`f => f && (isFile(f) || isDirectory(f))` tests string truthiness first:
the empty string is falsy and is dropped. -/
def getRecentlyUsedDocuments (fs : Fs) (fileContent : Option String) : LoadResult :=
  match fileContent with
  | none => ⟨[], []⟩
  | some s =>
    match parseStringArray s with
    | none => ⟨[], ["SyntaxError: JSON parse failure"]⟩
    | some arr =>
      ⟨truncateToMax (arr.filter (fun f => f ≠ "" && (fs.isFile f || fs.isDirectory f))), []⟩

/-! ## Platform model

`isOsxOrWindows` is `/darwin|win32/.test(process.platform)` (a substring
test) and `isOsx` is `process.platform === 'darwin'`. -/

/-- Whether `pat` starts the character list `cs`. -/
def startsWithChars : List Char → List Char → Bool
  | _, [] => true
  | [], _ :: _ => false
  | c :: cs, p :: ps => c = p && startsWithChars cs ps

/-- Whether `pat` occurs as a substring of `cs`. -/
def containsChars : List Char → List Char → Bool
  | [], ps => ps.isEmpty
  | c :: cs, ps => startsWithChars (c :: cs) ps || containsChars cs ps

/-- The constructor field `this.isOsxOrWindows`:
`/darwin|win32/.test(process.platform)`. -/
def isOsxOrWindows (platform : String) : Bool :=
  containsChars platform.data "darwin".data || containsChars platform.data "win32".data

/-- The constructor field `this.isOsx`: `process.platform === 'darwin'`. -/
def isOsx (platform : String) : Bool :=
  platform = "darwin"

/-! ## Menu model

An Electron menu is consumed as a queryable tree of checkable items:
`getMenuItemById` returns the first item with the id, or `null`.  We model
a built menu as an association list from item id to item state; in-place
item mutation becomes updating the first matching entry. -/

/-- The mutable state of one checkable menu item. -/
structure MenuItem where
  checked : Bool
  enabled : Bool
  deriving DecidableEq, Repr

/-- A built menu: a queryable collection of items keyed by id. -/
abbrev Menu : Type := List (String × MenuItem)

/-- Electron `menu.getMenuItemById(id)`: the first item with this id, or
`null` (`none`). -/
def getMenuItemById : Menu → String → Option MenuItem
  | [], _ => none
  | (i, it) :: rest, id => if i = id then some it else getMenuItemById rest id

/-- In-place mutation `item.checked = b` of the first item with this id
(no-op when absent; the callers below only reach it when present). -/
def setItemChecked : Menu → String → Bool → Menu
  | [], _, _ => []
  | (i, it) :: rest, id, b =>
    if i = id then (i, { it with checked := b }) :: rest
    else (i, it) :: setItemChecked rest id b

/-- In-place mutation `item.enabled = b` of the first item with this id. -/
def setItemEnabled : Menu → String → Bool → Menu
  | [], _, _ => []
  | (i, it) :: rest, id, b =>
    if i = id then (i, { it with enabled := b }) :: rest
    else (i, it) :: setItemEnabled rest id b

/-- Modelled from the spec: `configureMenu` (`src/main/menu/templates`,
not part of the sources under verification) together with
`Menu.buildFromTemplate`.  Per the spec, the built tree contains the five
toggle items — source-code mode, typewriter mode, focus mode,
sidebar-visible, tab-bar-visible — all actionable (`enabled`) and with
checkbox state defaulted to `false`, plus one entry per recently used
document. -/
def buildMenuModel (recentUsedDocuments : List String) : Menu :=
  ("sourceCodeModeMenuItem", ⟨false, true⟩) ::
  ("typewriterModeMenuItem", ⟨false, true⟩) ::
  ("focusModeMenuItem", ⟨false, true⟩) ::
  ("sideBarMenuItem", ⟨false, true⟩) ::
  ("tabBarMenuItem", ⟨false, true⟩) ::
  recentUsedDocuments.map (fun p => ("recentDocument:" ++ p, ⟨false, true⟩))

/-- The helper `updateMenuItem` (lines 217-221): copies the `checked`
state of item `id` from the old menu to the new menu.  Reading
`oldItem.checked` when `oldItem` is `null`, or assigning through a `null`
`newItem`, throws, which we model as `none`. -/
def updateMenuItem (oldMenus newMenus : Menu) (id : String) : Option Menu :=
  match getMenuItemById oldMenus id, getMenuItemById newMenus id with
  | some oldItem, some _ => some (setItemChecked newMenus id oldItem.checked)
  | _, _ => none

/-- The helper `updateMenuItemSafe` (lines 223-233): like
`updateMenuItem` but tolerating a `null` old menu or a missing old item,
falling back to `defaultValue`; assigning through a `null` `newItem`
still throws (`none`). -/
def updateMenuItemSafe (oldMenus : Option Menu) (newMenus : Menu) (id : String)
    (defaultValue : Bool) : Option Menu :=
  let checked : Bool :=
    match oldMenus with
    | none => defaultValue
    | some om =>
      match getMenuItemById om id with
      | none => defaultValue
      | some oldItem => oldItem.checked
  match getMenuItemById newMenus id with
  | none => none
  | some _ => some (setItemChecked newMenus id checked)

/-! ## The `AppMenu` state and its operations -/

/-- JavaScript `Map.prototype.get`. -/
def mapGet : List (Nat × Menu) → Nat → Option Menu
  | [], _ => none
  | (k, m) :: rest, key => if k = key then some m else mapGet rest key

/-- JavaScript `Map.prototype.set`: replaces the value under an existing
key, otherwise appends in insertion order. -/
def mapSet : List (Nat × Menu) → Nat → Menu → List (Nat × Menu)
  | [], key, v => [(key, v)]
  | (k, m) :: rest, key, v =>
    if k = key then (key, v) :: rest else (k, m) :: mapSet rest key v

/-- The mutable state of one `AppMenu` instance together with its
environment: the persisted recents file (`none` = absent), the per-window
menu snapshots in insertion order (the derived shortcut maps carry no
menu state and are elided), the active window id (`-1` = none), the
process-wide application menu (`Menu.getApplicationMenu()`, possibly
`null`), and the platform-native recent-documents facility, modelled as
the list of paths registered with it. -/
structure SysState where
  fileContent : Option String
  windowMenus : List (Nat × Menu)
  activeWindowId : Int
  applicationMenu : Option Menu
  nativeRecents : List String
  deriving DecidableEq, Repr

/-- The model of `AppMenu.updateAppMenu`'s `forEach` body over the whole
map (lines 174-193): rebuild one window's menu from the recents list and
copy the five toggle states from its old menu.  An exception from a
missing item aborts the whole operation (`none`). -/
def rebuildOne (recentUsedDocuments : List String) (oldMenu : Menu) : Option Menu :=
  (updateMenuItem oldMenu (buildMenuModel recentUsedDocuments) "sourceCodeModeMenuItem").bind
    fun m1 => (updateMenuItem oldMenu m1 "typewriterModeMenuItem").bind
    fun m2 => (updateMenuItem oldMenu m2 "focusModeMenuItem").bind
    fun m3 => (updateMenuItem oldMenu m3 "sideBarMenuItem").bind
    fun m4 => updateMenuItem oldMenu m4 "tabBarMenuItem"

/-- Iteration of `windowMenus.forEach` (lines 174-193): every stored
window menu is replaced by a rebuilt one, and when the key is the active
window the rebuilt menu also becomes the application menu. -/
def rebuildAll (recentUsedDocuments : List String) (activeWindowId : Int) :
    List (Nat × Menu) → Option Menu → Option (List (Nat × Menu) × Option Menu)
  | [], applicationMenu => some ([], applicationMenu)
  | (k, oldMenu) :: rest, applicationMenu =>
    match rebuildOne recentUsedDocuments oldMenu with
    | none => none
    | some newMenu =>
      let applicationMenu1 :=
        if activeWindowId = (k : Int) then some newMenu else applicationMenu
      match rebuildAll recentUsedDocuments activeWindowId rest applicationMenu1 with
      | some (rest1, applicationMenu2) => some ((k, newMenu) :: rest1, applicationMenu2)
      | none => none

/-- The model of `AppMenu.updateAppMenu` (lines 164-194).  A missing
(falsy) argument defaults to the loaded recents list; an empty array is
truthy in JavaScript and is used as given. -/
def updateAppMenu (fs : Fs) (st : SysState) (recentUsedDocuments : Option (List String)) :
    Option SysState :=
  let docs :=
    match recentUsedDocuments with
    | none => (getRecentlyUsedDocuments fs st.fileContent).docs
    | some d => d
  match rebuildAll docs st.activeWindowId st.windowMenus st.applicationMenu with
  | none => none
  | some (wms, appMenu) =>
    some { st with windowMenus := wms, applicationMenu := appMenu }

/-- The model of `AppMenu.addRecentlyUsedDocument` (lines 33-61).
On macOS and Windows the path is registered with the native facility; on
macOS the method then returns at once.  Otherwise the explicit list is
updated, all menus are rebuilt, and the list is written back when
`needSave` is set. -/
def addRecentlyUsedDocument (fs : Fs) (platform : String) (st : SysState)
    (filePath : String) : Option SysState :=
  let st :=
    if isOsxOrWindows platform then
      { st with nativeRecents := filePath :: st.nativeRecents }
    else st
  if isOsx platform then some st
  else
    let loaded := (getRecentlyUsedDocuments fs st.fileContent).docs
    let result := addRecentlyUsedDocumentCore filePath loaded
    match updateAppMenu fs st (some result.1) with
    | none => none
    | some st1 =>
      if result.2 then
        some { st1 with fileContent := some (jsonStringifyPretty result.1) }
      else
        some st1

/-- The model of `AppMenu.clearRecentlyUsedDocuments` (lines 83-93).
On macOS and Windows the native facility is cleared; on macOS the method
then returns at once.  Otherwise all menus are rebuilt from the empty
list and the empty array is written to the recents file. -/
def clearRecentlyUsedDocuments (fs : Fs) (platform : String) (st : SysState) :
    Option SysState :=
  let st :=
    if isOsxOrWindows platform then { st with nativeRecents := [] } else st
  if isOsx platform then some st
  else
    match updateAppMenu fs st (some []) with
    | none => none
    | some st1 => some { st1 with fileContent := some (jsonStringifyPretty []) }

/-- The model of `AppMenu.addEditorMenu` (lines 95-117).  A fresh menu is
built and stored, the source-code-mode and typewriter-mode checkbox
states are carried over from the current application menu (defaulting to
`false`), and when the carried source-code-mode is `true` the
typewriter-mode and focus-mode items are disabled.  (The focus-mode
carry-over is commented out in the source — the `FIXME` on line 104 —
and so does not appear here.)  Keybinding registration has no menu
effect and is elided. -/
def addEditorMenu (fs : Fs) (st : SysState) (windowId : Nat) : Option SysState :=
  let built := buildMenuModel (getRecentlyUsedDocuments fs st.fileContent).docs
  match updateMenuItemSafe st.applicationMenu built "sourceCodeModeMenuItem" false with
  | none => none
  | some m1 =>
    match updateMenuItemSafe st.applicationMenu m1 "typewriterModeMenuItem" false with
    | none => none
    | some m2 =>
      match getMenuItemById m2 "sourceCodeModeMenuItem" with
      | none => none
      | some srcItem =>
        if srcItem.checked then
          match getMenuItemById m2 "typewriterModeMenuItem",
              getMenuItemById m2 "focusModeMenuItem" with
          | some _, some _ =>
            let m3 := setItemEnabled (setItemEnabled m2 "typewriterModeMenuItem" false)
              "focusModeMenuItem" false
            some { st with windowMenus := mapSet st.windowMenus windowId m3 }
          | _, _ => none
        else
          some { st with windowMenus := mapSet st.windowMenus windowId m2 }

/-- A JavaScript runtime error reaching the caller. -/
inductive JsError where
  /-- A `TypeError` thrown implicitly by the runtime, e.g. destructuring
  or dereferencing `undefined`. -/
  | typeError (msg : String)
  /-- An `Error` thrown explicitly by `throw new Error(...)`. -/
  | explicit (msg : String)
  deriving DecidableEq, Repr

/-- Truthiness of a stored menu value: a built menu is an object and
objects are always truthy, so the `if (!menu)` guard on line 130 can
never fire for a stored snapshot. -/
def menuIsFalsy (_ : Menu) : Bool := false

/-- The model of `AppMenu.getWindowMenuById` (lines 128-135).  Returns
the emitted log lines and either the menu or the error that propagates.
Line 129 destructures `this.windowMenus.get(windowId)`: when the id is
not in the map, `get` yields `undefined` and the destructuring itself
throws a `TypeError` — before the `if (!menu)` guard, so the `log.error`
call and the explicit `throw` on lines 131-132 are not reached. -/
def getWindowMenuById (windowMenus : List (Nat × Menu)) (windowId : Nat) :
    List String × Except JsError Menu :=
  match mapGet windowMenus windowId with
  | none =>
    ([], Except.error (JsError.typeError "Cannot destructure property of undefined"))
  | some menu =>
    if menuIsFalsy menu then
      (["getWindowMenuById: Cannot find window menu for id " ++ toString windowId ++ "."],
       Except.error (JsError.explicit
         ("Cannot find window menu for id " ++ toString windowId ++ ".")))
    else
      ([], Except.ok menu)

/-- The model of `AppMenu.setActiveWindow` (lines 137-143): when the
window differs from the active one, its stored menu becomes the
application menu; a failure in `getWindowMenuById` propagates. -/
def setActiveWindow (st : SysState) (windowId : Nat) :
    List String × Except JsError SysState :=
  if st.activeWindowId ≠ (windowId : Int) then
    match getWindowMenuById st.windowMenus windowId with
    | (logs, Except.error e) => (logs, Except.error e)
    | (logs, Except.ok menu) =>
      (logs, Except.ok { st with applicationMenu := some menu, activeWindowId := (windowId : Int) })
  else
    ([], Except.ok st)

/-- Stated from the spec's words, for comparison with the code path: the
toggle state carried into a freshly created window menu is the state of
that item on the currently visible menu, and `false` when there is no
visible menu or the visible menu lacks the item. -/
def carriedToggleSpec (current : Option Menu) (id : String) : Bool :=
  match current with
  | none => false
  | some cm =>
    match getMenuItemById cm id with
    | none => false
    | some it => it.checked

/-- The checkbox state of item `id` on a menu, read totally (`false`
when the item is missing; the rebuild path only reads it on menus that
have the item). -/
def checkedOf (m : Menu) (id : String) : Bool :=
  ((getMenuItemById m id).map MenuItem.checked).getD false

/-- Whether a menu has all five toggle items that `updateAppMenu` copies
forward. -/
def hasToggleItems (m : Menu) : Bool :=
  (getMenuItemById m "sourceCodeModeMenuItem").isSome &&
  (getMenuItemById m "typewriterModeMenuItem").isSome &&
  (getMenuItemById m "focusModeMenuItem").isSome &&
  (getMenuItemById m "sideBarMenuItem").isSome &&
  (getMenuItemById m "tabBarMenuItem").isSome

/-- Stated from the spec's words, for comparison with the rebuild path: a
brand-new tree built from the recents list, with the five toggle states
copied from the window's own prior snapshot. -/
def copyFiveSpec (recentUsedDocuments : List String) (old : Menu) : Menu :=
  setItemChecked (setItemChecked (setItemChecked (setItemChecked (setItemChecked
    (buildMenuModel recentUsedDocuments)
    "sourceCodeModeMenuItem" (checkedOf old "sourceCodeModeMenuItem"))
    "typewriterModeMenuItem" (checkedOf old "typewriterModeMenuItem"))
    "focusModeMenuItem" (checkedOf old "focusModeMenuItem"))
    "sideBarMenuItem" (checkedOf old "sideBarMenuItem"))
    "tabBarMenuItem" (checkedOf old "tabBarMenuItem")

/-- The application menu left behind by the `forEach` of
`updateAppMenu`: each window whose key equals the active id installs its
rebuilt menu. -/
def rebuildAppSpec (recentUsedDocuments : List String) (activeWindowId : Int) :
    List (Nat × Menu) → Option Menu → Option Menu
  | [], applicationMenu => applicationMenu
  | (k, m) :: rest, applicationMenu =>
    rebuildAppSpec recentUsedDocuments activeWindowId rest
      (if activeWindowId = (k : Int) then some (copyFiveSpec recentUsedDocuments m)
       else applicationMenu)

/-- The recents list actually used by `updateAppMenu`: the argument when
given (an empty array is truthy), otherwise the list loaded from
storage. -/
def effectiveRecentDocs (fs : Fs) (st : SysState)
    (recentUsedDocuments : Option (List String)) : List String :=
  match recentUsedDocuments with
  | none => (getRecentlyUsedDocuments fs st.fileContent).docs
  | some d => d

/-! ## Concrete inputs used by witnesses and counterexamples -/

/-- A filesystem on which no path exists. -/
def emptyFs : Fs := ⟨fun _ => false, fun _ => false⟩

/-- A visible menu with typewriter mode checked and source-code mode
unchecked. -/
def visibleMenuTypewriterOn : Menu :=
  [("sourceCodeModeMenuItem", ⟨false, true⟩), ("typewriterModeMenuItem", ⟨true, true⟩)]

/-- A visible menu with source-code mode checked. -/
def visibleMenuSourceOn : Menu :=
  [("sourceCodeModeMenuItem", ⟨true, true⟩), ("typewriterModeMenuItem", ⟨false, true⟩)]

/-- State of window A being active with typewriter mode on, before
window B is created. -/
def stateTypewriterActive : SysState :=
  ⟨none, [(1, visibleMenuTypewriterOn)], 1, some visibleMenuTypewriterOn, []⟩

/-- State of a window with source-code mode on being active. -/
def stateSourceActive : SysState :=
  ⟨none, [(1, visibleMenuSourceOn)], 1, some visibleMenuSourceOn, []⟩

/-- A state on macOS with a nonempty persisted recents file. -/
def stateDarwinWithFile : SysState :=
  ⟨some "[\n  \"a\"\n]", [], -1, none, ["x"]⟩

/-- A two-window state where window 2 is active and has its sidebar
hidden-state toggled on, used to exercise the rebuild. -/
def stateTwoWindows : SysState :=
  ⟨none,
   [(1, buildMenuModel []),
    (2, setItemChecked (buildMenuModel []) "sideBarMenuItem" true)],
   2, none, []⟩

/-- Repeatedly adding paths to an initially empty recency list (the list
part of successive `addRecentlyUsedDocument` calls on a platform that
maintains the explicit list). -/
def foldAddRecents (ps : List String) : List String :=
  ps.foldl (fun acc p => (addRecentlyUsedDocumentCore p acc).1) []

/-! ## Lemmas about `firstIndexOf` and the add core -/

theorem firstIndexOf_eq_none_iff (x : String) (l : List String) :
    firstIndexOf x l = none ↔ x ∉ l := by
  induction l with
  | nil => simp [firstIndexOf]
  | cons y ys ih =>
    by_cases h : y = x
    · simp [firstIndexOf, h]
    · rw [show firstIndexOf x (y :: ys) = (firstIndexOf x ys).map (· + 1) by
        simp [firstIndexOf, h]]
      rw [Option.map_eq_none', ih]
      simp only [List.mem_cons, not_or]
      constructor
      · intro hx
        exact ⟨fun hxy => h hxy.symm, hx⟩
      · intro hx
        exact hx.2

theorem firstIndexOf_eq_zero (x : String) (l : List String)
    (h : firstIndexOf x l = some 0) : ∃ t, l = x :: t := by
  cases l with
  | nil => simp [firstIndexOf] at h
  | cons y ys =>
    by_cases hy : y = x
    · exact ⟨ys, by rw [hy]⟩
    · exfalso
      rw [show firstIndexOf x (y :: ys) = (firstIndexOf x ys).map (· + 1) by
        simp [firstIndexOf, hy]] at h
      rw [Option.map_eq_some'] at h
      obtain ⟨a, _, ha⟩ := h
      omega

theorem firstIndexOf_eq_succ (x : String) (l : List String) (k : Nat)
    (h : firstIndexOf x l = some (k + 1)) :
    ∃ y t, l = y :: t ∧ y ≠ x ∧ firstIndexOf x t = some k := by
  cases l with
  | nil => simp [firstIndexOf] at h
  | cons y ys =>
    by_cases hy : y = x
    · simp [firstIndexOf, hy] at h
    · rw [show firstIndexOf x (y :: ys) = (firstIndexOf x ys).map (· + 1) by
        simp [firstIndexOf, hy]] at h
      rw [Option.map_eq_some'] at h
      obtain ⟨a, ha, hak⟩ := h
      refine ⟨y, ys, rfl, hy, ?_⟩
      rw [ha]
      congr 1
      omega

theorem firstIndexOf_lt_length (x : String) (l : List String) (k : Nat)
    (h : firstIndexOf x l = some k) : k < l.length := by
  induction l generalizing k with
  | nil => simp [firstIndexOf] at h
  | cons y ys ih =>
    by_cases hy : y = x
    · rw [show firstIndexOf x (y :: ys) = some 0 by simp [firstIndexOf, hy]] at h
      simp only [Option.some_inj] at h
      simp [← h]
    · rw [show firstIndexOf x (y :: ys) = (firstIndexOf x ys).map (· + 1) by
        simp [firstIndexOf, hy]] at h
      rw [Option.map_eq_some'] at h
      obtain ⟨a, ha, hak⟩ := h
      have := ih a ha
      simp only [List.length_cons]
      omega

theorem jsIndexOf_eq_zero_iff (l : List String) (x : String) :
    jsIndexOf l x = 0 ↔ firstIndexOf x l = some 0 := by
  unfold jsIndexOf
  cases h : firstIndexOf x l with
  | none => simp
  | some n => simp [Int.natCast_eq_zero]

theorem jsIndexOf_eq_natCast_iff (l : List String) (x : String) (k : Nat) :
    jsIndexOf l x = (k : Int) ↔ firstIndexOf x l = some k := by
  unfold jsIndexOf
  cases h : firstIndexOf x l with
  | none =>
    simp only [Option.some.injEq]
    constructor
    · intro hk; omega
    · intro hk; exact absurd hk (by simp)
  | some n => simp [Int.natCast_inj]

theorem jsIndexOf_eq_neg_one_iff (l : List String) (x : String) :
    jsIndexOf l x = -1 ↔ firstIndexOf x l = none := by
  unfold jsIndexOf
  cases h : firstIndexOf x l with
  | none => simp
  | some n =>
    simp only [Option.some.injEq]
    constructor
    · intro hk; omega
    · intro hk; exact absurd hk (by simp)

/-- Case analysis of the add core when the path is at the head. -/
theorem addCore_found_zero (p : String) (l : List String)
    (h : firstIndexOf p l = some 0) :
    addRecentlyUsedDocumentCore p l =
      if l.length > 12 then (l.take 12, true) else (l, false) := by
  unfold addRecentlyUsedDocumentCore jsIndexOf
  rw [h]
  norm_num [MAX_RECENTLY_USED_DOCUMENTS]

/-- Case analysis of the add core when the path is at index `k + 1`. -/
theorem addCore_found_succ (p : String) (l : List String) (k : Nat)
    (h : firstIndexOf p l = some (k + 1)) :
    addRecentlyUsedDocumentCore p l =
      if (p :: l.eraseIdx (k + 1)).length > 12 then
        ((p :: l.eraseIdx (k + 1)).take 12, true)
      else (p :: l.eraseIdx (k + 1), true) := by
  unfold addRecentlyUsedDocumentCore jsIndexOf
  rw [h]
  have h1 : ((k : Int) + 1 ≠ 0) := by omega
  have h2 : ((k : Int) + 1 > 0) := by omega
  norm_num [MAX_RECENTLY_USED_DOCUMENTS, h1, h2]

/-- Case analysis of the add core when the path is absent. -/
theorem addCore_absent (p : String) (l : List String)
    (h : firstIndexOf p l = none) :
    addRecentlyUsedDocumentCore p l =
      if (p :: l).length > 12 then ((p :: l).take 12, true) else (p :: l, true) := by
  unfold addRecentlyUsedDocumentCore jsIndexOf
  rw [h]
  norm_num [MAX_RECENTLY_USED_DOCUMENTS]

theorem take12_cons (a : String) (t : List String) :
    (a :: t).take 12 = a :: t.take 11 := rfl

/-- Adding a path absent from a deduplicated list of length at most 12
prepends it and keeps the first 12 entries. -/
theorem addCore_absent_take (p : String) (l : List String)
    (h : firstIndexOf p l = none) :
    (addRecentlyUsedDocumentCore p l).1 = (p :: l).take 12 := by
  rw [addCore_absent p l h]
  by_cases h12 : (p :: l).length > 12
  · rw [if_pos h12]
  · rw [if_neg h12]
    rw [List.take_of_length_le (by omega)]

theorem truncateToMax_length_le (l : List String) : (truncateToMax l).length ≤ 12 := by
  unfold truncateToMax MAX_RECENTLY_USED_DOCUMENTS
  by_cases h : l.length > 12
  · rw [if_pos h]
    simp only [List.length_take]
    omega
  · rw [if_neg h]
    omega

theorem mem_truncateToMax (x : String) (l : List String) (h : x ∈ truncateToMax l) :
    x ∈ l := by
  unfold truncateToMax at h
  by_cases h12 : l.length > MAX_RECENTLY_USED_DOCUMENTS
  · rw [if_pos h12] at h
    exact List.mem_of_mem_take h
  · rwa [if_neg h12] at h

/-- Folding `addRecentlyUsedDocumentCore` over distinct paths from the
empty list keeps the 12 most recent entries, most-recent-first. -/
theorem foldAddRecents_eq (ps : List String) (h : ps.Nodup) :
    foldAddRecents ps = ps.reverse.take 12 := by
  induction ps using List.reverseRecOn with
  | nil => rfl
  | append_singleton l a ih =>
    rw [List.nodup_append] at h
    have hl : l.Nodup := h.1
    have ha : a ∉ l := fun hmem => h.2.2 hmem (List.mem_singleton_self a)
    have hfold : foldAddRecents (l ++ [a]) =
        (addRecentlyUsedDocumentCore a (foldAddRecents l)).1 := by
      unfold foldAddRecents
      rw [List.foldl_append]
      rfl
    rw [hfold, ih hl]
    have hnot : firstIndexOf a (l.reverse.take 12) = none := by
      rw [firstIndexOf_eq_none_iff]
      intro hmem
      exact ha (by
        have hrev := List.mem_of_mem_take hmem
        rwa [List.mem_reverse] at hrev)
    rw [addCore_absent_take a _ hnot, List.reverse_append]
    simp only [List.reverse_singleton, List.singleton_append]
    rw [take12_cons, take12_cons, List.take_take]
    norm_num

/-- C2: the recency list never exceeds 12 entries: every add and every
load from storage yields a list of length at most 12, and adding more
than 12 distinct paths to the empty list yields exactly the 12 most
recent ones, most-recent-first, the oldest entries being evicted. -/
theorem claim_C2_bounded_recency_list :
    (∀ (p : String) (l : List String),
      (addRecentlyUsedDocumentCore p l).1.length ≤ 12) ∧
    (∀ (fs : Fs) (c : Option String),
      (getRecentlyUsedDocuments fs c).docs.length ≤ 12) ∧
    (∀ ps : List String, ps.Nodup → 12 < ps.length →
      foldAddRecents ps = ps.reverse.take 12 ∧ (foldAddRecents ps).length = 12) := by
  refine ⟨?_, ?_, ?_⟩
  · intro p l
    cases h : firstIndexOf p l with
    | none =>
      rw [addCore_absent_take p l h]
      simp only [List.length_take]
      omega
    | some k =>
      cases k with
      | zero =>
        rw [addCore_found_zero p l h]
        by_cases h12 : l.length > 12
        · rw [if_pos h12]
          simp only [List.length_take]
          omega
        · rw [if_neg h12]
          simp only
          omega
      | succ k =>
        rw [addCore_found_succ p l k h]
        by_cases h12 : (p :: l.eraseIdx (k + 1)).length > 12
        · rw [if_pos h12]
          simp only [List.length_take]
          omega
        · rw [if_neg h12]
          simp only at h12 ⊢
          omega
  · intro fs c
    cases c with
    | none => simp [getRecentlyUsedDocuments]
    | some s =>
      cases hp : parseStringArray s with
      | none => simp [getRecentlyUsedDocuments, hp]
      | some arr => simp [getRecentlyUsedDocuments, hp, truncateToMax_length_le]
  · intro ps hnd hlen
    refine ⟨foldAddRecents_eq ps hnd, ?_⟩
    rw [foldAddRecents_eq ps hnd]
    simp only [List.length_take, List.length_reverse]
    omega

/-- C2 witness: thirteen distinct paths yield exactly the twelve most
recent, most-recent-first. -/
theorem claim_C2_witness :
    foldAddRecents ["d01", "d02", "d03", "d04", "d05", "d06", "d07", "d08", "d09",
        "d10", "d11", "d12", "d13"] =
      ["d13", "d12", "d11", "d10", "d09", "d08", "d07", "d06", "d05", "d04", "d03",
        "d02"] ∧
    (foldAddRecents ["d01", "d02", "d03", "d04", "d05", "d06", "d07", "d08", "d09",
        "d10", "d11", "d12", "d13"]).length = 12 := by
  have h := claim_C2_bounded_recency_list.2.2
    ["d01", "d02", "d03", "d04", "d05", "d06", "d07", "d08", "d09", "d10", "d11",
      "d12", "d13"] (by decide) (by decide)
  exact ⟨by rw [h.1]; rfl, h.2⟩

/-- C1: on a platform maintaining the explicit list, the add core behaves
by cases on the index of the path: at index 0 the list is unchanged; at
index `k > 0` the path is removed from `k` and reinserted at index 0;
when absent it is inserted at index 0 (keeping the first 12 entries).
Adding the same path twice to the empty list leaves the list at exactly
`[p]`. -/
theorem claim_C1_add_case_analysis (p : String) (l : List String)
    (hlen : l.length ≤ 12) :
    (jsIndexOf l p = 0 → (addRecentlyUsedDocumentCore p l).1 = l) ∧
    (∀ k : Nat, 0 < k → jsIndexOf l p = (k : Int) →
      (addRecentlyUsedDocumentCore p l).1 = p :: l.eraseIdx k) ∧
    (jsIndexOf l p = -1 → (addRecentlyUsedDocumentCore p l).1 = (p :: l).take 12) ∧
    (addRecentlyUsedDocumentCore p []).1 = [p] ∧
    (addRecentlyUsedDocumentCore p ((addRecentlyUsedDocumentCore p []).1)).1 = [p] := by
  have hbase : (addRecentlyUsedDocumentCore p []).1 = [p] := rfl
  refine ⟨?_, ?_, ?_, hbase, ?_⟩
  · intro h
    rw [jsIndexOf_eq_zero_iff] at h
    rw [addCore_found_zero p l h, if_neg (by omega)]
  · intro k hk h
    rw [jsIndexOf_eq_natCast_iff] at h
    cases k with
    | zero => omega
    | succ k =>
      have hlt := firstIndexOf_lt_length p l (k + 1) h
      rw [addCore_found_succ p l k h]
      rw [if_neg (by
        simp only [List.length_cons, List.length_eraseIdx_of_lt hlt]
        omega)]
  · intro h
    rw [jsIndexOf_eq_neg_one_iff] at h
    exact addCore_absent_take p l h
  · rw [hbase]
    have h0 : firstIndexOf p [p] = some 0 := by simp [firstIndexOf]
    rw [addCore_found_zero p [p] h0, if_neg (by simp)]

/-- C1 witness: a concrete run of each case with a four-entry list. -/
theorem claim_C1_witness :
    (addRecentlyUsedDocumentCore "a" ["a", "b", "c", "d"]).1 = ["a", "b", "c", "d"] ∧
    (addRecentlyUsedDocumentCore "c" ["a", "b", "c", "d"]).1 =
      "c" :: (["a", "b", "c", "d"].eraseIdx 2) ∧
    (addRecentlyUsedDocumentCore "x" ["a", "b", "c", "d"]).1 =
      ("x" :: ["a", "b", "c", "d"]).take 12 ∧
    (addRecentlyUsedDocumentCore "x" ((addRecentlyUsedDocumentCore "x" []).1)).1 = ["x"] := by
  have h := claim_C1_add_case_analysis "a" ["a", "b", "c", "d"] (by decide)
  have hc := claim_C1_add_case_analysis "c" ["a", "b", "c", "d"] (by decide)
  have hx := claim_C1_add_case_analysis "x" ["a", "b", "c", "d"] (by decide)
  exact ⟨h.1 (by decide), hc.2.1 2 (by decide) (by decide), hx.2.2.1 (by decide),
    hx.2.2.2.2⟩

/-- C3: the `needSave` flag that gates the persistence write is set if
and only if the add core structurally changed the list: it is `false`
exactly when the path was already at position 0 (and no truncation ran),
and every removal, insertion or truncation sets it. -/
theorem claim_C3_write_iff_change (p : String) (l : List String) :
    (addRecentlyUsedDocumentCore p l).2 = true ↔
      (addRecentlyUsedDocumentCore p l).1 ≠ l := by
  cases h : firstIndexOf p l with
  | none =>
    have hmem : p ∉ l := (firstIndexOf_eq_none_iff p l).1 h
    rw [addCore_absent p l h]
    by_cases h12 : (p :: l).length > 12
    · rw [if_pos h12]
      simp only [true_iff]
      rw [take12_cons]
      intro heq
      exact hmem (heq ▸ List.mem_cons_self p (l.take 11))
    · rw [if_neg h12]
      simp only [true_iff]
      intro heq
      exact hmem (heq ▸ List.mem_cons_self p l)
  | some k =>
    cases k with
    | zero =>
      obtain ⟨t, rfl⟩ := firstIndexOf_eq_zero p _ h
      rw [addCore_found_zero p _ h]
      by_cases h12 : (p :: t).length > 12
      · rw [if_pos h12]
        simp only [true_iff]
        intro heq
        have := congrArg List.length heq
        simp only [List.length_take] at this
        omega
      · rw [if_neg h12]
        simp
    | succ k =>
      obtain ⟨y, t, rfl, hy, _⟩ := firstIndexOf_eq_succ p _ k h
      rw [addCore_found_succ p _ k h]
      by_cases h12 : (p :: (y :: t).eraseIdx (k + 1)).length > 12
      · rw [if_pos h12]
        simp only [true_iff]
        rw [take12_cons]
        intro heq
        exact hy (List.head_eq_of_cons_eq heq.symm)
      · rw [if_neg h12]
        simp only [true_iff]
        intro heq
        exact hy (List.head_eq_of_cons_eq heq.symm)

/-- C4: when the persisted file parses, the returned list contains only
entries that currently reference an existing file or directory; a
deleted path present in the persisted array is absent from the result,
and no error is raised (nothing is logged) for it. -/
theorem claim_C4_existing_entries_only (fs : Fs) (s : String) (arr : List String)
    (hp : parseStringArray s = some arr) :
    (∀ e ∈ (getRecentlyUsedDocuments fs (some s)).docs,
      fs.isFile e = true ∨ fs.isDirectory e = true) ∧
    (∀ q : String, fs.isFile q = false → fs.isDirectory q = false →
      q ∉ (getRecentlyUsedDocuments fs (some s)).docs) ∧
    (getRecentlyUsedDocuments fs (some s)).logs = [] := by
  have hdocs : (getRecentlyUsedDocuments fs (some s)).docs =
      truncateToMax (arr.filter (fun f => f ≠ "" && (fs.isFile f || fs.isDirectory f))) := by
    simp [getRecentlyUsedDocuments, hp]
  have hmem : ∀ e ∈ (getRecentlyUsedDocuments fs (some s)).docs,
      fs.isFile e = true ∨ fs.isDirectory e = true := by
    intro e he
    rw [hdocs] at he
    have hf := mem_truncateToMax e _ he
    have := (List.mem_filter.1 hf).2
    simp only [Bool.and_eq_true, Bool.or_eq_true] at this
    exact this.2
  refine ⟨hmem, ?_, ?_⟩
  · intro q hqf hqd hq
    rcases hmem q hq with h | h
    · rw [hqf] at h
      exact Bool.false_ne_true h
    · rw [hqd] at h
      exact Bool.false_ne_true h
  · simp [getRecentlyUsedDocuments, hp]

/-- C4 witness: a persisted array holding an existing path and a deleted
one; the deleted path is filtered out without error. -/
theorem claim_C4_witness :
    ("/gone" ∉ (getRecentlyUsedDocuments ⟨fun q => q == "/kept", fun _ => false⟩
      (some "[\n  \"/kept\",\n  \"/gone\"\n]")).docs) ∧
    (getRecentlyUsedDocuments ⟨fun q => q == "/kept", fun _ => false⟩
      (some "[\n  \"/kept\",\n  \"/gone\"\n]")).logs = [] := by
  have h := claim_C4_existing_entries_only ⟨fun q => q == "/kept", fun _ => false⟩
    "[\n  \"/kept\",\n  \"/gone\"\n]" ["/kept", "/gone"] (by decide)
  exact ⟨h.2.1 "/gone" (by decide) (by decide), h.2.2⟩

/-- C5: malformed persisted content yields the empty list, the failure is
logged, and (the load function being total) no exception reaches the
caller. -/
theorem claim_C5_malformed_content (fs : Fs) (s : String)
    (hp : parseStringArray s = none) :
    (getRecentlyUsedDocuments fs (some s)).docs = [] ∧
    (getRecentlyUsedDocuments fs (some s)).logs ≠ [] := by
  constructor
  · simp [getRecentlyUsedDocuments, hp]
  · simp [getRecentlyUsedDocuments, hp]

/-- C5 witness: a concrete unparsable file body. -/
theorem claim_C5_witness :
    (getRecentlyUsedDocuments ⟨fun _ => true, fun _ => true⟩ (some "not json")).docs = [] ∧
    (getRecentlyUsedDocuments ⟨fun _ => true, fun _ => true⟩ (some "not json")).logs ≠ [] :=
  claim_C5_malformed_content ⟨fun _ => true, fun _ => true⟩ "not json" (by decide)

/-! ## Lemmas about menu item lookup and mutation -/

theorem getMenuItemById_setItemChecked_self (m : Menu) (id : String) (b : Bool) :
    getMenuItemById (setItemChecked m id b) id =
      (getMenuItemById m id).map (fun it => { it with checked := b }) := by
  induction m with
  | nil => rfl
  | cons e rest ih =>
    obtain ⟨i, it⟩ := e
    by_cases h : i = id
    · simp [setItemChecked, getMenuItemById, h]
    · simp [setItemChecked, getMenuItemById, h, ih]

theorem getMenuItemById_setItemChecked_ne (m : Menu) (id idq : String) (b : Bool)
    (h : idq ≠ id) :
    getMenuItemById (setItemChecked m id b) idq = getMenuItemById m idq := by
  induction m with
  | nil => rfl
  | cons e rest ih =>
    obtain ⟨i, it⟩ := e
    by_cases hi : i = id
    · subst hi
      have hne : ¬i = idq := fun hq => h (hq.symm)
      simp [setItemChecked, getMenuItemById, hne]
    · by_cases hq : i = idq
      · subst hq
        simp [setItemChecked, getMenuItemById, hi]
      · simp [setItemChecked, getMenuItemById, hi, hq, ih]

theorem getMenuItemById_setItemEnabled_self (m : Menu) (id : String) (b : Bool) :
    getMenuItemById (setItemEnabled m id b) id =
      (getMenuItemById m id).map (fun it => { it with enabled := b }) := by
  induction m with
  | nil => rfl
  | cons e rest ih =>
    obtain ⟨i, it⟩ := e
    by_cases h : i = id
    · simp [setItemEnabled, getMenuItemById, h]
    · simp [setItemEnabled, getMenuItemById, h, ih]

theorem getMenuItemById_setItemEnabled_ne (m : Menu) (id idq : String) (b : Bool)
    (h : idq ≠ id) :
    getMenuItemById (setItemEnabled m id b) idq = getMenuItemById m idq := by
  induction m with
  | nil => rfl
  | cons e rest ih =>
    obtain ⟨i, it⟩ := e
    by_cases hi : i = id
    · subst hi
      have hne : ¬i = idq := fun hq => h (hq.symm)
      simp [setItemEnabled, getMenuItemById, hne]
    · by_cases hq : i = idq
      · subst hq
        simp [setItemEnabled, getMenuItemById, hi]
      · simp [setItemEnabled, getMenuItemById, hi, hq, ih]

theorem buildMenuModel_get_sourceCode (docs : List String) :
    getMenuItemById (buildMenuModel docs) "sourceCodeModeMenuItem" = some ⟨false, true⟩ := rfl

theorem buildMenuModel_get_typewriter (docs : List String) :
    getMenuItemById (buildMenuModel docs) "typewriterModeMenuItem" = some ⟨false, true⟩ := rfl

theorem buildMenuModel_get_focus (docs : List String) :
    getMenuItemById (buildMenuModel docs) "focusModeMenuItem" = some ⟨false, true⟩ := rfl

theorem buildMenuModel_get_sideBar (docs : List String) :
    getMenuItemById (buildMenuModel docs) "sideBarMenuItem" = some ⟨false, true⟩ := rfl

theorem buildMenuModel_get_tabBar (docs : List String) :
    getMenuItemById (buildMenuModel docs) "tabBarMenuItem" = some ⟨false, true⟩ := rfl

theorem updateMenuItemSafe_eq (cur : Option Menu) (nm : Menu) (id : String)
    (it : MenuItem) (h : getMenuItemById nm id = some it) :
    updateMenuItemSafe cur nm id false =
      some (setItemChecked nm id (carriedToggleSpec cur id)) := by
  unfold updateMenuItemSafe carriedToggleSpec
  rw [h]

theorem mapGet_mapSet_self (ms : List (Nat × Menu)) (k : Nat) (v : Menu) :
    mapGet (mapSet ms k v) k = some v := by
  induction ms with
  | nil => simp [mapSet, mapGet]
  | cons e rest ih =>
    obtain ⟨i, m⟩ := e
    by_cases h : i = k
    · simp [mapSet, mapGet, h]
    · simp [mapSet, mapGet, h, ih]

/-- Full characterization of `addEditorMenu`: it always succeeds, stores
one new menu under the window id, and that menu has the carried-over
source-code and typewriter checkbox states, with typewriter and focus
enabled exactly when the carried source-code state is off. -/
theorem addEditorMenu_spec (fs : Fs) (st : SysState) (wid : Nat) :
    ∃ m : Menu,
      addEditorMenu fs st wid =
        some { st with windowMenus := mapSet st.windowMenus wid m } ∧
      getMenuItemById m "sourceCodeModeMenuItem" =
        some ⟨carriedToggleSpec st.applicationMenu "sourceCodeModeMenuItem", true⟩ ∧
      getMenuItemById m "typewriterModeMenuItem" =
        some ⟨carriedToggleSpec st.applicationMenu "typewriterModeMenuItem",
          !carriedToggleSpec st.applicationMenu "sourceCodeModeMenuItem"⟩ ∧
      getMenuItemById m "focusModeMenuItem" =
        some ⟨false, !carriedToggleSpec st.applicationMenu "sourceCodeModeMenuItem"⟩ := by
  set docs := (getRecentlyUsedDocuments fs st.fileContent).docs with hdocs
  set c1 := carriedToggleSpec st.applicationMenu "sourceCodeModeMenuItem" with hc1def
  set c2 := carriedToggleSpec st.applicationMenu "typewriterModeMenuItem" with hc2def
  have h1 := updateMenuItemSafe_eq st.applicationMenu (buildMenuModel docs)
    "sourceCodeModeMenuItem" _ (buildMenuModel_get_sourceCode docs)
  set m1 := setItemChecked (buildMenuModel docs) "sourceCodeModeMenuItem" c1 with hm1def
  have hm1tw : getMenuItemById m1 "typewriterModeMenuItem" = some ⟨false, true⟩ := by
    rw [hm1def, getMenuItemById_setItemChecked_ne _ _ _ _ (by decide)]
    exact buildMenuModel_get_typewriter docs
  have h2 := updateMenuItemSafe_eq st.applicationMenu m1 "typewriterModeMenuItem" _ hm1tw
  set m2 := setItemChecked m1 "typewriterModeMenuItem" c2 with hm2def
  have hm2src : getMenuItemById m2 "sourceCodeModeMenuItem" = some ⟨c1, true⟩ := by
    rw [hm2def, getMenuItemById_setItemChecked_ne _ _ _ _ (by decide), hm1def,
      getMenuItemById_setItemChecked_self, buildMenuModel_get_sourceCode]
    rfl
  have hm2tw : getMenuItemById m2 "typewriterModeMenuItem" = some ⟨c2, true⟩ := by
    rw [hm2def, getMenuItemById_setItemChecked_self, hm1tw]
    rfl
  have hm2focus : getMenuItemById m2 "focusModeMenuItem" = some ⟨false, true⟩ := by
    rw [hm2def, getMenuItemById_setItemChecked_ne _ _ _ _ (by decide), hm1def,
      getMenuItemById_setItemChecked_ne _ _ _ _ (by decide)]
    exact buildMenuModel_get_focus docs
  cases hc1 : c1 with
  | false =>
    refine ⟨m2, ?_, ?_, ?_, ?_⟩
    · unfold addEditorMenu
      rw [← hdocs]
      simp only [h1, h2, hm2src, hc1]
      simp
    · rw [hm2src, hc1]
    · rw [hm2tw]
      rfl
    · rw [hm2focus]
      rfl
  | true =>
    refine ⟨setItemEnabled (setItemEnabled m2 "typewriterModeMenuItem" false)
      "focusModeMenuItem" false, ?_, ?_, ?_, ?_⟩
    · unfold addEditorMenu
      rw [← hdocs]
      simp only [h1, h2, hm2src, hc1, hm2tw, hm2focus]
      simp
    · rw [getMenuItemById_setItemEnabled_ne _ _ _ _ (by decide),
        getMenuItemById_setItemEnabled_ne _ _ _ _ (by decide), hm2src, hc1]
    · rw [getMenuItemById_setItemEnabled_ne _ _ _ _ (by decide),
        getMenuItemById_setItemEnabled_self, hm2tw]
      rfl
    · rw [getMenuItemById_setItemEnabled_self,
        getMenuItemById_setItemEnabled_ne _ _ _ _ (by decide), hm2focus]
      rfl

/-- C8: the menu stored for a freshly created window carries the
source-code-mode and typewriter-mode toggle states of the currently
visible menu (`false` when there is no visible menu or it lacks the
item); in particular a window created while the visible menu has
typewriter mode on and source mode off starts with typewriter on and
source mode off. -/
theorem claim_C8_carryover_on_create (fs : Fs) (st : SysState) (wid : Nat) :
    ∃ (st' : SysState) (m : Menu),
      addEditorMenu fs st wid = some st' ∧
      mapGet st'.windowMenus wid = some m ∧
      (getMenuItemById m "sourceCodeModeMenuItem").map MenuItem.checked =
        some (carriedToggleSpec st.applicationMenu "sourceCodeModeMenuItem") ∧
      (getMenuItemById m "typewriterModeMenuItem").map MenuItem.checked =
        some (carriedToggleSpec st.applicationMenu "typewriterModeMenuItem") ∧
      (∀ cm : Menu, ∀ twIt srcIt : MenuItem,
        st.applicationMenu = some cm →
        getMenuItemById cm "typewriterModeMenuItem" = some twIt →
        twIt.checked = true →
        getMenuItemById cm "sourceCodeModeMenuItem" = some srcIt →
        srcIt.checked = false →
        (getMenuItemById m "typewriterModeMenuItem").map MenuItem.checked = some true ∧
        (getMenuItemById m "sourceCodeModeMenuItem").map MenuItem.checked = some false) := by
  obtain ⟨m, hste, hsrc, htw, _⟩ := addEditorMenu_spec fs st wid
  refine ⟨_, m, hste, mapGet_mapSet_self _ _ _, ?_, ?_, ?_⟩
  · rw [hsrc]
    rfl
  · rw [htw]
    rfl
  · intro cm twIt srcIt hcm htwIt htwc hsrcIt hsrcc
    constructor
    · rw [htw]
      show some (carriedToggleSpec st.applicationMenu "typewriterModeMenuItem") = some true
      rw [hcm]
      simp only [carriedToggleSpec, htwIt, htwc]
    · rw [hsrc]
      show some (carriedToggleSpec st.applicationMenu "sourceCodeModeMenuItem") = some false
      rw [hcm]
      simp only [carriedToggleSpec, hsrcIt, hsrcc]

/-- C8 witness: window 2 created while window 1 is visible with
typewriter mode on and source mode off. -/
theorem claim_C8_witness :
    ∃ (st' : SysState) (m : Menu),
      addEditorMenu emptyFs stateTypewriterActive 2 = some st' ∧
      mapGet st'.windowMenus 2 = some m ∧
      (getMenuItemById m "typewriterModeMenuItem").map MenuItem.checked = some true ∧
      (getMenuItemById m "sourceCodeModeMenuItem").map MenuItem.checked = some false := by
  obtain ⟨st', m, h1, h2, _, _, h5⟩ :=
    claim_C8_carryover_on_create emptyFs stateTypewriterActive 2
  obtain ⟨htw, hsrc⟩ := h5 visibleMenuTypewriterOn ⟨true, true⟩ ⟨false, true⟩
    rfl (by decide) rfl (by decide) rfl
  exact ⟨st', m, h1, h2, htw, hsrc⟩

/-- C9: at window-menu creation, when the carried-over source-code-mode
state is `true` the typewriter-mode and focus-mode items of the stored
tree are disabled; when it is `false` they are left enabled. -/
theorem claim_C9_coupling_rule (fs : Fs) (st : SysState) (wid : Nat) :
    ∃ (st' : SysState) (m : Menu),
      addEditorMenu fs st wid = some st' ∧
      mapGet st'.windowMenus wid = some m ∧
      (carriedToggleSpec st.applicationMenu "sourceCodeModeMenuItem" = true →
        (getMenuItemById m "typewriterModeMenuItem").map MenuItem.enabled = some false ∧
        (getMenuItemById m "focusModeMenuItem").map MenuItem.enabled = some false) ∧
      (carriedToggleSpec st.applicationMenu "sourceCodeModeMenuItem" = false →
        (getMenuItemById m "typewriterModeMenuItem").map MenuItem.enabled = some true ∧
        (getMenuItemById m "focusModeMenuItem").map MenuItem.enabled = some true) := by
  obtain ⟨m, hste, _, htw, hfocus⟩ := addEditorMenu_spec fs st wid
  refine ⟨_, m, hste, mapGet_mapSet_self _ _ _, ?_, ?_⟩
  · intro hsrc
    rw [htw, hfocus, hsrc]
    exact ⟨rfl, rfl⟩
  · intro hsrc
    rw [htw, hfocus, hsrc]
    exact ⟨rfl, rfl⟩

/-- C9 witness: a window created while source-code mode is visible and
checked gets disabled typewriter-mode and focus-mode items. -/
theorem claim_C9_witness :
    ∃ (st' : SysState) (m : Menu),
      addEditorMenu emptyFs stateSourceActive 2 = some st' ∧
      mapGet st'.windowMenus 2 = some m ∧
      (getMenuItemById m "typewriterModeMenuItem").map MenuItem.enabled = some false ∧
      (getMenuItemById m "focusModeMenuItem").map MenuItem.enabled = some false := by
  obtain ⟨st', m, h1, h2, h3, _⟩ := claim_C9_coupling_rule emptyFs stateSourceActive 2
  obtain ⟨htw, hfocus⟩ := h3 (by decide)
  exact ⟨st', m, h1, h2, htw, hfocus⟩

theorem updateMenuItem_eq (oldMenus newMenus : Menu) (id : String) (oi ni : MenuItem)
    (ho : getMenuItemById oldMenus id = some oi)
    (hn : getMenuItemById newMenus id = some ni) :
    updateMenuItem oldMenus newMenus id = some (setItemChecked newMenus id oi.checked) := by
  unfold updateMenuItem
  rw [ho, hn]

theorem checkedOf_eq (m : Menu) (id : String) (it : MenuItem)
    (h : getMenuItemById m id = some it) : checkedOf m id = it.checked := by
  unfold checkedOf
  rw [h]
  rfl

theorem copyFiveSpec_get_sourceCode (docs : List String) (old : Menu) :
    getMenuItemById (copyFiveSpec docs old) "sourceCodeModeMenuItem" =
      some ⟨checkedOf old "sourceCodeModeMenuItem", true⟩ := by
  unfold copyFiveSpec
  rw [getMenuItemById_setItemChecked_ne _ _ _ _ (by decide),
    getMenuItemById_setItemChecked_ne _ _ _ _ (by decide),
    getMenuItemById_setItemChecked_ne _ _ _ _ (by decide),
    getMenuItemById_setItemChecked_ne _ _ _ _ (by decide),
    getMenuItemById_setItemChecked_self, buildMenuModel_get_sourceCode]
  rfl

theorem copyFiveSpec_get_typewriter (docs : List String) (old : Menu) :
    getMenuItemById (copyFiveSpec docs old) "typewriterModeMenuItem" =
      some ⟨checkedOf old "typewriterModeMenuItem", true⟩ := by
  unfold copyFiveSpec
  rw [getMenuItemById_setItemChecked_ne _ _ _ _ (by decide),
    getMenuItemById_setItemChecked_ne _ _ _ _ (by decide),
    getMenuItemById_setItemChecked_ne _ _ _ _ (by decide),
    getMenuItemById_setItemChecked_self,
    getMenuItemById_setItemChecked_ne _ _ _ _ (by decide),
    buildMenuModel_get_typewriter]
  rfl

theorem copyFiveSpec_get_focus (docs : List String) (old : Menu) :
    getMenuItemById (copyFiveSpec docs old) "focusModeMenuItem" =
      some ⟨checkedOf old "focusModeMenuItem", true⟩ := by
  unfold copyFiveSpec
  rw [getMenuItemById_setItemChecked_ne _ _ _ _ (by decide),
    getMenuItemById_setItemChecked_ne _ _ _ _ (by decide),
    getMenuItemById_setItemChecked_self,
    getMenuItemById_setItemChecked_ne _ _ _ _ (by decide),
    getMenuItemById_setItemChecked_ne _ _ _ _ (by decide),
    buildMenuModel_get_focus]
  rfl

theorem copyFiveSpec_get_sideBar (docs : List String) (old : Menu) :
    getMenuItemById (copyFiveSpec docs old) "sideBarMenuItem" =
      some ⟨checkedOf old "sideBarMenuItem", true⟩ := by
  unfold copyFiveSpec
  rw [getMenuItemById_setItemChecked_ne _ _ _ _ (by decide),
    getMenuItemById_setItemChecked_self,
    getMenuItemById_setItemChecked_ne _ _ _ _ (by decide),
    getMenuItemById_setItemChecked_ne _ _ _ _ (by decide),
    getMenuItemById_setItemChecked_ne _ _ _ _ (by decide),
    buildMenuModel_get_sideBar]
  rfl

theorem copyFiveSpec_get_tabBar (docs : List String) (old : Menu) :
    getMenuItemById (copyFiveSpec docs old) "tabBarMenuItem" =
      some ⟨checkedOf old "tabBarMenuItem", true⟩ := by
  unfold copyFiveSpec
  rw [getMenuItemById_setItemChecked_self,
    getMenuItemById_setItemChecked_ne _ _ _ _ (by decide),
    getMenuItemById_setItemChecked_ne _ _ _ _ (by decide),
    getMenuItemById_setItemChecked_ne _ _ _ _ (by decide),
    getMenuItemById_setItemChecked_ne _ _ _ _ (by decide),
    buildMenuModel_get_tabBar]
  rfl

/-- On an old menu carrying all five toggle items, the per-window rebuild
succeeds and produces exactly the spec-side "new tree with the five
toggles copied". -/
theorem rebuildOne_eq (docs : List String) (old : Menu)
    (h : hasToggleItems old = true) :
    rebuildOne docs old = some (copyFiveSpec docs old) := by
  unfold hasToggleItems at h
  simp only [Bool.and_eq_true, Option.isSome_iff_exists] at h
  obtain ⟨⟨⟨⟨⟨i1, h1⟩, i2, h2⟩, i3, h3⟩, i4, h4⟩, i5, h5⟩ := h
  have e1 := updateMenuItem_eq old (buildMenuModel docs) "sourceCodeModeMenuItem" i1 _
    h1 (buildMenuModel_get_sourceCode docs)
  set m1 := setItemChecked (buildMenuModel docs) "sourceCodeModeMenuItem" i1.checked
    with hm1def
  have g1 : getMenuItemById m1 "typewriterModeMenuItem" = some ⟨false, true⟩ := by
    rw [hm1def, getMenuItemById_setItemChecked_ne _ _ _ _ (by decide),
      buildMenuModel_get_typewriter]
  have e2 := updateMenuItem_eq old m1 "typewriterModeMenuItem" i2 _ h2 g1
  set m2 := setItemChecked m1 "typewriterModeMenuItem" i2.checked with hm2def
  have g2 : getMenuItemById m2 "focusModeMenuItem" = some ⟨false, true⟩ := by
    rw [hm2def, getMenuItemById_setItemChecked_ne _ _ _ _ (by decide), hm1def,
      getMenuItemById_setItemChecked_ne _ _ _ _ (by decide), buildMenuModel_get_focus]
  have e3 := updateMenuItem_eq old m2 "focusModeMenuItem" i3 _ h3 g2
  set m3 := setItemChecked m2 "focusModeMenuItem" i3.checked with hm3def
  have g3 : getMenuItemById m3 "sideBarMenuItem" = some ⟨false, true⟩ := by
    rw [hm3def, getMenuItemById_setItemChecked_ne _ _ _ _ (by decide), hm2def,
      getMenuItemById_setItemChecked_ne _ _ _ _ (by decide), hm1def,
      getMenuItemById_setItemChecked_ne _ _ _ _ (by decide), buildMenuModel_get_sideBar]
  have e4 := updateMenuItem_eq old m3 "sideBarMenuItem" i4 _ h4 g3
  set m4 := setItemChecked m3 "sideBarMenuItem" i4.checked with hm4def
  have g4 : getMenuItemById m4 "tabBarMenuItem" = some ⟨false, true⟩ := by
    rw [hm4def, getMenuItemById_setItemChecked_ne _ _ _ _ (by decide), hm3def,
      getMenuItemById_setItemChecked_ne _ _ _ _ (by decide), hm2def,
      getMenuItemById_setItemChecked_ne _ _ _ _ (by decide), hm1def,
      getMenuItemById_setItemChecked_ne _ _ _ _ (by decide), buildMenuModel_get_tabBar]
  have e5 := updateMenuItem_eq old m4 "tabBarMenuItem" i5 _ h5 g4
  unfold rebuildOne
  rw [e1, Option.some_bind, e2, Option.some_bind, e3, Option.some_bind, e4,
    Option.some_bind, e5]
  unfold copyFiveSpec
  rw [checkedOf_eq old _ _ h1, checkedOf_eq old _ _ h2, checkedOf_eq old _ _ h3,
    checkedOf_eq old _ _ h4, checkedOf_eq old _ _ h5]

/-- The `forEach` rebuild over all windows, functionally: every stored
menu replaced by the copied new tree, and the application menu as given
by `rebuildAppSpec`. -/
theorem rebuildAll_eq (docs : List String) (aid : Int) (wms : List (Nat × Menu))
    (app : Option Menu) (h : ∀ e ∈ wms, hasToggleItems e.2 = true) :
    rebuildAll docs aid wms app =
      some (wms.map (fun e => (e.1, copyFiveSpec docs e.2)),
        rebuildAppSpec docs aid wms app) := by
  induction wms generalizing app with
  | nil => rfl
  | cons e rest ih =>
    obtain ⟨k, m⟩ := e
    have hm : hasToggleItems m = true := h (k, m) (List.mem_cons_self _ _)
    have hrest : ∀ e ∈ rest, hasToggleItems e.2 = true :=
      fun e he => h e (List.mem_cons_of_mem _ he)
    unfold rebuildAll
    rw [rebuildOne_eq docs m hm]
    dsimp only
    rw [ih _ hrest]
    simp only [List.map_cons]
    rfl

theorem rebuildAppSpec_of_no_active (docs : List String) (aid : Int)
    (wms : List (Nat × Menu)) (app : Option Menu)
    (h : ∀ e ∈ wms, ¬aid = ((e.1 : Nat) : Int)) :
    rebuildAppSpec docs aid wms app = app := by
  induction wms generalizing app with
  | nil => rfl
  | cons e rest ih =>
    obtain ⟨k, m⟩ := e
    unfold rebuildAppSpec
    rw [if_neg (h (k, m) (List.mem_cons_self _ _))]
    exact ih _ fun e he => h e (List.mem_cons_of_mem _ he)

theorem rebuildAppSpec_active (docs : List String) (aid : Int)
    (wms : List (Nat × Menu)) (app : Option Menu) (k : Nat) (m : Menu)
    (hmem : (k, m) ∈ wms) (hk : aid = (k : Int))
    (hnd : (wms.map Prod.fst).Nodup) :
    rebuildAppSpec docs aid wms app = some (copyFiveSpec docs m) := by
  induction wms generalizing app with
  | nil => cases hmem
  | cons e rest ih =>
    obtain ⟨kk, mm⟩ := e
    simp only [List.map_cons, List.nodup_cons] at hnd
    rcases List.mem_cons.1 hmem with heq | hmem1
    · obtain ⟨hk1, hm1⟩ := Prod.mk.injEq .. ▸ heq
      subst hk1
      subst hm1
      unfold rebuildAppSpec
      rw [if_pos hk]
      apply rebuildAppSpec_of_no_active
      intro e he habs
      apply hnd.1
      have hke : e.1 = k := by
        have : ((e.1 : Nat) : Int) = (k : Int) := by omega
        exact_mod_cast this
      rw [← hke]
      exact List.mem_map_of_mem Prod.fst he
    · unfold rebuildAppSpec
      have hne : ¬aid = ((kk : Nat) : Int) := by
        intro habs
        apply hnd.1
        have hkk : k = kk := by
          have : (k : Int) = (kk : Int) := by omega
          exact_mod_cast this
        rw [← hkk]
        exact List.mem_map_of_mem Prod.fst hmem1
      rw [if_neg hne]
      exact ih _ hmem1 hnd.2

/-- C10: the rebuild replaces every stored window menu with a brand-new
tree carrying the five toggle states — source-code, typewriter, focus,
sidebar, tab-bar — copied from that window's own prior snapshot, and
when the rebuilt window is the active one its new tree becomes the
process-wide application menu; in particular each window's own
sidebar-visible and tab-bar-visible flags survive the rebuild. -/
theorem claim_C10_rebuild_keeps_own_toggles (fs : Fs) (st : SysState)
    (docsArg : Option (List String))
    (hitems : ∀ e ∈ st.windowMenus, hasToggleItems e.2 = true)
    (hkeys : (st.windowMenus.map Prod.fst).Nodup) :
    ∃ st' : SysState, updateAppMenu fs st docsArg = some st' ∧
      st'.windowMenus = st.windowMenus.map
        (fun e => (e.1, copyFiveSpec (effectiveRecentDocs fs st docsArg) e.2)) ∧
      (∀ (k : Nat) (m : Menu), (k, m) ∈ st.windowMenus →
        (k, copyFiveSpec (effectiveRecentDocs fs st docsArg) m) ∈ st'.windowMenus ∧
        ∀ id ∈ (["sourceCodeModeMenuItem", "typewriterModeMenuItem", "focusModeMenuItem",
            "sideBarMenuItem", "tabBarMenuItem"] : List String),
          (getMenuItemById (copyFiveSpec (effectiveRecentDocs fs st docsArg) m) id).map
              MenuItem.checked =
            (getMenuItemById m id).map MenuItem.checked) ∧
      (∀ (k : Nat) (m : Menu), (k, m) ∈ st.windowMenus → st.activeWindowId = (k : Int) →
        st'.applicationMenu = some (copyFiveSpec (effectiveRecentDocs fs st docsArg) m)) := by
  refine ⟨⟨st.fileContent,
    st.windowMenus.map (fun e => (e.1, copyFiveSpec (effectiveRecentDocs fs st docsArg) e.2)),
    st.activeWindowId,
    rebuildAppSpec (effectiveRecentDocs fs st docsArg) st.activeWindowId st.windowMenus
      st.applicationMenu,
    st.nativeRecents⟩, ?_, rfl, ?_, ?_⟩
  · unfold updateAppMenu effectiveRecentDocs
    dsimp only
    rw [rebuildAll_eq _ _ _ _ hitems]
  · intro k m hmem
    refine ⟨?_, ?_⟩
    · exact List.mem_map_of_mem
        (fun e => (e.1, copyFiveSpec (effectiveRecentDocs fs st docsArg) e.2)) hmem
    · intro id hid
      have hm := hitems (k, m) hmem
      unfold hasToggleItems at hm
      simp only [Bool.and_eq_true, Option.isSome_iff_exists] at hm
      obtain ⟨⟨⟨⟨⟨i1, h1⟩, i2, h2⟩, i3, h3⟩, i4, h4⟩, i5, h5⟩ := hm
      simp only [List.mem_cons, List.not_mem_nil, or_false] at hid
      rcases hid with rfl | rfl | rfl | rfl | rfl
      · rw [copyFiveSpec_get_sourceCode, h1, checkedOf_eq m _ _ h1]
        rfl
      · rw [copyFiveSpec_get_typewriter, h2, checkedOf_eq m _ _ h2]
        rfl
      · rw [copyFiveSpec_get_focus, h3, checkedOf_eq m _ _ h3]
        rfl
      · rw [copyFiveSpec_get_sideBar, h4, checkedOf_eq m _ _ h4]
        rfl
      · rw [copyFiveSpec_get_tabBar, h5, checkedOf_eq m _ _ h5]
        rfl
  · intro k m hmem hk
    exact rebuildAppSpec_active _ _ _ _ k m hmem hk hkeys

/-- C10 witness: two windows, window 2 active with its sidebar toggle
on; after a rebuild with a fresh recents list both windows keep their
own sidebar state and window 2's new tree is the application menu. -/
theorem claim_C10_witness :
    ∃ st' : SysState, updateAppMenu emptyFs stateTwoWindows (some ["doc1"]) = some st' ∧
      (getMenuItemById (copyFiveSpec ["doc1"]
          (setItemChecked (buildMenuModel []) "sideBarMenuItem" true)) "sideBarMenuItem").map
          MenuItem.checked =
        (getMenuItemById (setItemChecked (buildMenuModel []) "sideBarMenuItem" true)
          "sideBarMenuItem").map MenuItem.checked ∧
      st'.applicationMenu = some (copyFiveSpec ["doc1"]
        (setItemChecked (buildMenuModel []) "sideBarMenuItem" true)) := by
  obtain ⟨st', h1, _, h3, h4⟩ :=
    claim_C10_rebuild_keeps_own_toggles emptyFs stateTwoWindows (some ["doc1"])
      (by decide) (by decide)
  refine ⟨st', h1, ?_, ?_⟩
  · exact (h3 2 (setItemChecked (buildMenuModel []) "sideBarMenuItem" true)
      (by decide)).2 "sideBarMenuItem" (by decide)
  · exact h4 2 (setItemChecked (buildMenuModel []) "sideBarMenuItem" true)
      (by decide) (by decide)

/-- C6 counterexample: on macOS (`process.platform = 'darwin'`) the
method returns right after clearing the native facility, so with a
nonempty persisted file the file is left untouched — it does not end up
containing `[]` as the claim, read over all platforms, asserts. -/
theorem claim_C6_counterexample :
    (clearRecentlyUsedDocuments emptyFs "darwin" stateDarwinWithFile).map
        SysState.fileContent ≠ some (some "[]") ∧
    (clearRecentlyUsedDocuments emptyFs "darwin" stateDarwinWithFile).map
        SysState.nativeRecents = some [] := by
  constructor
  · decide
  · decide

/-- C6 (amended): on platforms maintaining the explicit list (all but
macOS), `clear` empties the list, persists `[]` (so a subsequent load
returns the empty list without error), rebuilds every window menu from
the empty list, and on Windows also clears the native facility; on macOS
only the native facility is cleared. -/
theorem claim_C6_clear_amended (fs : Fs) (platform : String) (st : SysState)
    (hnotosx : isOsx platform = false)
    (hitems : ∀ e ∈ st.windowMenus, hasToggleItems e.2 = true) :
    ∃ st' : SysState, clearRecentlyUsedDocuments fs platform st = some st' ∧
      st'.fileContent = some "[]" ∧
      st'.fileContent = some (jsonStringifyPretty []) ∧
      (getRecentlyUsedDocuments fs st'.fileContent).docs = [] ∧
      (getRecentlyUsedDocuments fs st'.fileContent).logs = [] ∧
      (isOsxOrWindows platform = true → st'.nativeRecents = []) ∧
      st'.windowMenus = st.windowMenus.map (fun e => (e.1, copyFiveSpec [] e.2)) := by
  unfold clearRecentlyUsedDocuments
  rw [hnotosx]
  set st1 : SysState :=
    if isOsxOrWindows platform = true then { st with nativeRecents := [] } else st
    with hst1
  have hwm : st1.windowMenus = st.windowMenus := by
    rw [hst1]
    by_cases hp : isOsxOrWindows platform = true
    · rw [if_pos hp]
    · rw [if_neg hp]
  have hrb := rebuildAll_eq ([] : List String) st1.activeWindowId st1.windowMenus
    st1.applicationMenu (by rw [hwm]; exact hitems)
  unfold updateAppMenu
  dsimp only
  rw [hrb]
  refine ⟨_, rfl, rfl, rfl, rfl, rfl, ?_, ?_⟩
  · intro hp
    show st1.nativeRecents = []
    rw [hst1, if_pos hp]
  · show st1.windowMenus.map _ = _
    rw [hwm]

/-- C6 witness for the amended claim: a Linux state with two windows and
a nonempty persisted file. -/
theorem claim_C6_witness :
    ∃ st' : SysState,
      clearRecentlyUsedDocuments emptyFs "linux"
        { stateTwoWindows with fileContent := some "[\n  \"a\"\n]" } = some st' ∧
      st'.fileContent = some "[]" ∧
      (getRecentlyUsedDocuments emptyFs st'.fileContent).docs = [] := by
  obtain ⟨st', h1, h2, _, h4, _⟩ := claim_C6_clear_amended emptyFs "linux"
    { stateTwoWindows with fileContent := some "[\n  \"a\"\n]" }
    (by decide) (by decide)
  exact ⟨st', h1, h2, h4⟩

/-- C7: evaluating `getWindowMenuById` and `setActiveWindow` at a window
id with no stored snapshot.  The destructuring on line 129 throws a
`TypeError` before the guard on line 130 can run, so the error that
reaches the caller is the implicit `TypeError`, not the explicit
`Error`, and nothing is logged — the claim's "logged before the error is
raised" describes the intended but unreachable branch. -/
theorem claim_C7_missing_snapshot_eval :
    getWindowMenuById [] 7 =
      ([], Except.error (JsError.typeError "Cannot destructure property of undefined")) ∧
    setActiveWindow ⟨none, [], -1, none, []⟩ 7 =
      ([], Except.error (JsError.typeError "Cannot destructure property of undefined")) := by
  constructor
  · rfl
  · rfl

end MarkText
